import Mathlib

/-!
Verification of the command resolution and dispatch engine of the
`UnifiedRegistryPlugin` (ncatbot, `plugin_system/builtin_plugin/unified_registry/plugin.py`).

The orchestrator module `plugin.py` is translated definition by definition.
Its collaborating subsystems (message preprocessor, tokenizer, the resolver's
trie walk, argument binder, filter validator, handler bodies and the two
global registries) live in modules that are not part of the orchestrator
source; they are either abstracted as oracle behaviours carried in an `Env`
record, or, where a claim depends on their behaviour, modelled from the
spec (such definitions carry a doc comment starting with "Modelled from the
spec:").

Python exceptions are modelled explicitly: a call that may raise returns an
`Except` or an `Option BuildError` alongside the (partially) mutated state,
mirroring the fact that mutations performed before a `raise` persist on the
object.
-/

namespace NcatbotUnified

/-- Model of Python `s.startswith(p)`: `p` is a prefix of `s` (character list form,
kept executable for concrete evaluation). -/
def strStartsWith (s p : String) : Bool :=
  p.data.isPrefixOf s.data

/-- Model of Python `s.endswith(p)`: `p` is a suffix of `s`. -/
def strEndsWith (s p : String) : Bool :=
  p.data.isSuffixOf s.data

/-- Model of Python `text.split(" ")[0]`: the characters before the first space. -/
def firstWordOf (s : String) : String :=
  ⟨s.data.takeWhile (fun c => c ≠ ' ')⟩

/-- Helper for `dedupFirst`: keeps each element the first time it is seen,
`seen` collecting the elements already emitted. -/
def dedupFirstAux (seen : List String) : List String → List String
  | [] => []
  | a :: l => if a ∈ seen then dedupFirstAux seen l else a :: dedupFirstAux (a :: seen) l

/-- Model of Python `list(dict.fromkeys(xs))`: deduplication keeping the first
occurrence of each element, in order (plugin.py line 226). -/
def dedupFirst (l : List String) : List String :=
  dedupFirstAux [] l

/-- Translation of plugin.py lines 226-234: the active message-prefix list is the
flattened registry prefix list, deduplicated in first-occurrence order, with the
empty string removed (Python `list.remove` deletes the first occurrence, which
after deduplication is the only one). -/
def activePrefixes (registered : List String) : List String :=
  let ps := dedupFirst registered
  if "" ∈ ps then ps.erase "" else ps

/-- Translation of `UnifiedRegistryPlugin._normalize_case` (plugin.py lines 78-80):
the identity (case sensitivity is an unimplemented TODO in the source). -/
def normalizeCase (s : String) : String := s

/-- Inner loop of the prefix-conflict scan (plugin.py lines 252-258): scan the
enumerated prefix list for a `(j, p2)` with `i ≠ j` and `p2.startswith(p1)`;
the first hit is the pair the `ValueError` reports. -/
def innerScan (i : Nat) (p1 : String) : List (Nat × String) → Option (String × String)
  | [] => none
  | (j, p2) :: rest =>
    if i ≠ j ∧ strStartsWith p2 p1 then some (p1, p2) else innerScan i p1 rest

/-- Outer loop of the prefix-conflict scan (plugin.py lines 251-258). -/
def outerScan (e : List (Nat × String)) : List (Nat × String) → Option (String × String)
  | [] => none
  | (i, p1) :: rest =>
    match innerScan i p1 e with
    | some r => some r
    | none => outerScan e rest

/-- Translation of the double loop at plugin.py lines 251-258: returns the first
pair `(p1, p2)` of prefixes at distinct indices with `p2.startswith(p1)`, the
pair named by the raised `ValueError`; `none` when no conflict exists. -/
def prefixConflictCheck (ps : List String) : Option (String × String) :=
  outerScan (ps.enumFrom 0) (ps.enumFrom 0)

/-- Model of a registered handler function: its identity, and the duck-typed
attributes the orchestrator inspects (`__is_command__`, presence of `__filters__`). -/
structure Func where
  id : Nat
  isCommand : Bool
  hasFilters : Bool
deriving DecidableEq

/-- Model of a command specification as the orchestrator consumes it: name,
path words, declared prefixes, handler function and owning plugin. -/
structure CommandSpec where
  name : String
  pathWords : List String
  prefixes : List String
  func : Func
  owningPlugin : String
deriving DecidableEq

/-- Inbound events are opaque to the orchestrator (it only hands them to the
collaborating subsystems), so a bare identifier suffices. -/
abbrev Event := Nat

/-- Tokens are produced by the external tokenizer and consumed opaquely by the
external resolver; their internal structure is irrelevant to the orchestrator. -/
abbrev Token := String

/-- Result of the external message preprocessor; the orchestrator reads only
`command_text` (plugin.py line 139). -/
structure PreprocessResult where
  commandText : String
deriving DecidableEq

/-- Result of the external resolver's token walk: the matched command and the
path words consumed (used as the ignore count for binding, plugin.py line 181). -/
structure MatchResult where
  command : CommandSpec
  pathWords : List String
deriving DecidableEq

/-- Result of successful argument binding (`BindResult` with `args` and
`named_args`), forwarded opaquely to the handler call. -/
structure BindResult where
  args : List String
  namedArgs : List (String × String)
deriving DecidableEq

/-- Modelled from the spec: the resolver's three-state machine
Empty -> Built, with Error on an irrecoverable build conflict. -/
inductive ResolverPhase
  | empty
  | built (commands : List (List String × CommandSpec)) (aliases : List (List String × CommandSpec))
  | errored
deriving DecidableEq

/-- Modelled from the spec: a `CommandResolver` carries its configured message
prefixes and its build phase (the resolver module is absent from the sources). -/
structure Resolver where
  prefixes : List String
  phase : ResolverPhase
deriving DecidableEq

/-- Modelled from the spec: `getCommands()` exposes the command specs of a
built index for cheap prefix pre-filtering; an unbuilt or errored resolver
exposes none (nothing has been inserted, and a corrupt half-built index must
never be used). -/
def Resolver.getCommands (r : Resolver) : List CommandSpec :=
  match r.phase with
  | .built cs _ => cs.map (fun e => e.2)
  | _ => []

/-- Modelled from the spec: every command and alias spec held by the built
index (empty for an unbuilt or errored resolver). -/
def Resolver.indexSpecs (r : Resolver) : List CommandSpec :=
  match r.phase with
  | .built cs as => (cs ++ as).map (fun e => e.2)
  | _ => []

/-- Modelled from the spec: a path conflict exists when two distinct entries
of the combined command/alias table would occupy the same normalized path. -/
def hasPathConflict : List (List String × CommandSpec) → Bool
  | [] => false
  | (p, _) :: rest => rest.any (fun e => e.1 = p) || hasPathConflict rest

/-- Configuration errors raised during the index build: the prefix containment
conflict from plugin.py lines 251-258 (a `ValueError` naming the pair), and the
spec's `PathConflict` from the resolver build. -/
inductive BuildError
  | prefixConflict (p1 p2 : String)
  | pathConflict
deriving DecidableEq

/-- Modelled from the spec: `buildIndex` inserts every command and alias path
into the index and raises `PathConflict` when two distinct owning specs would
occupy the same normalized path; on success the resolver is Built, on failure
it is in the Error state. -/
def Resolver.buildIndex (r : Resolver)
    (cmds aliases : List (List String × CommandSpec)) : Resolver × Option BuildError :=
  if hasPathConflict (cmds ++ aliases) then
    ({ r with phase := .errored }, some .pathConflict)
  else
    ({ r with phase := .built cmds aliases }, none)

/-- The slice of the global `command_registry` the orchestrator reads: the
prefix list of each sub-registry, and the command and alias tables
(`get_all_commands` / `get_all_aliases`, maps from path tuple to spec). -/
structure Registry where
  registryPrefixLists : List (List String)
  commands : List (List String × CommandSpec)
  aliases : List (List String × CommandSpec)
deriving DecidableEq

/-- Modelled from the spec: `revokePlugin` removes every spec (commands and
aliases) owned by the named plugin from the registry. -/
def Registry.revokePlugin (reg : Registry) (pluginName : String) : Registry :=
  { reg with
      commands := reg.commands.filter (fun e => e.2.owningPlugin ≠ pluginName),
      aliases := reg.aliases.filter (fun e => e.2.owningPlugin ≠ pluginName) }

/-- One entry of the global `filter_registry`'s `_function_filters` table,
with the owning plugin recorded for revocation. -/
structure FilterEntry where
  fname : String
  owner : String
  func : Func
deriving DecidableEq

/-- The slice of the global `filter_registry` the orchestrator reads. -/
structure FilterRegistry where
  entries : List FilterEntry
deriving DecidableEq

/-- Modelled from the spec: revoking a plugin removes the filter functions it
registered. -/
def FilterRegistry.revokePlugin (fr : FilterRegistry) (pluginName : String) : FilterRegistry :=
  { entries := fr.entries.filter (fun e => e.owner ≠ pluginName) }

/-- The two global registries the orchestrator reads and the unload handler
mutates. -/
structure World where
  commandReg : Registry
  filterReg : FilterRegistry
deriving DecidableEq

/-- The mutable attribute state of a `UnifiedRegistryPlugin` instance used by
dispatch: the `_initialized` flag, the computed prefix list, the configured
preprocessor and resolver (absent before the first build), and the
`func_plugin_map` cache. -/
structure PluginState where
  initialized : Bool
  prefixes : List String
  preprocessorPrefixes : Option (List String)
  resolver : Option Resolver
  funcPluginMap : List (Nat × String)
deriving DecidableEq

/-- The state `on_load` leaves behind: not initialized, empty caches, no
preprocessor or resolver yet. -/
def initialState : PluginState :=
  { initialized := false, prefixes := [], preprocessorPrefixes := none,
    resolver := none, funcPluginMap := [] }

/-- Oracle behaviours of the collaborating subsystems that are outside the
orchestrator module: preprocessor precheck, tokenizer, the resolver's token
walk, argument binder, filter validator, the handler bodies themselves (which
may raise), and the plugin membership table scanned by
`_find_plugin_for_function`. -/
structure Env where
  precheck : List String → Event → Option PreprocessResult
  tokenize : String → List Token
  resolveFromTokens : Resolver → List Token → String × Option MatchResult
  bind : CommandSpec → Event → List String → List String → Except String BindResult
  validateFilters : Func → Event → Bool
  funcCall : Func → Event → Except String Bool
  plugins : List (String × List Nat)

/-- A record published to the event bus (the external notification sink):
its type string and the `data` fields `event`, `msg` and `cmd`
(plugin.py lines 191-196). -/
structure Notification where
  ntype : String
  event : Event
  msg : String
  cmd : String
deriving DecidableEq

/-- Outcome of `_execute_function` for one call: rejected by the handler's own
filters, completed with the handler's boolean result, or an exception caught
at the boundary (logged, `False` returned). -/
inductive ExecResult
  | filteredOut
  | completed (v : Bool)
  | caught
deriving DecidableEq

/-- Translation of `UnifiedRegistryPlugin._find_plugin_for_function`
(plugin.py lines 295-309): consult the `func_plugin_map` cache, else scan the
live plugins and cache a hit; a miss is not cached. -/
def findPluginForFunction (env : Env) (st : PluginState) (f : Func) :
    Option String × PluginState :=
  match (st.funcPluginMap.find? (fun e => e.1 = f.id)) with
  | some e => (some e.2, st)
  | none =>
    match env.plugins.find? (fun pr => pr.2.contains f.id) with
    | some pr => (some pr.1, { st with funcPluginMap := st.funcPluginMap ++ [(f.id, pr.1)] })
    | none => (none, st)

/-- Translation of `UnifiedRegistryPlugin._execute_function` (plugin.py lines
95-118): look up the owning plugin, validate the handler's own filters when it
carries `__filters__`, call the handler (awaited or thread-offloaded), and
catch any exception, logging it (two log lines) and returning `False`.
The returned log list holds the error-path log lines. -/
def executeFunction (env : Env) (st : PluginState) (f : Func) (ev : Event) :
    PluginState × ExecResult × List String :=
  let found := findPluginForFunction env st f
  let st1 := found.2
  if f.hasFilters ∧ env.validateFilters f ev = false then
    (st1, .filteredOut, [])
  else
    match env.funcCall f ev with
    | .ok v => (st1, .completed v, [])
    | .error e => (st1, .caught, ["error executing function: " ++ e, "traceback"])

/-- Loop body of `_run_pure_filters`: run every function of the filter table,
skipping any marked `__is_command__`, threading the plugin state through and
collecting each invocation with its outcome. -/
def runPureFiltersGo (env : Env) (ev : Event) :
    PluginState → List Func → PluginState × List (Func × ExecResult)
  | st, [] => (st, [])
  | st, f :: rest =>
    if f.isCommand then runPureFiltersGo env ev st rest
    else
      let r := executeFunction env st f ev
      let next := runPureFiltersGo env ev r.1 rest
      (next.1, (f, r.2.1) :: next.2)

/-- Translation of `UnifiedRegistryPlugin._run_pure_filters` (plugin.py lines
120-126). -/
def runPureFilters (env : Env) (fr : FilterRegistry) (st : PluginState) (ev : Event) :
    PluginState × List (Func × ExecResult) :=
  runPureFiltersGo env ev st (fr.entries.map (fun e => e.func))

/-- Control outcome of one `_run_command` call, recording which of the early
`return False` exits was taken, a bind failure, or the handler execution. -/
inductive RunOutcome
  | stateUnset
  | preNone
  | noHit
  | noMatch
  | prefixMismatch
  | bindFailed (msg : String) (cmdName : String)
  | executed (f : Func) (r : ExecResult)
deriving DecidableEq

/-- Translation of `UnifiedRegistryPlugin._run_command` (plugin.py lines
128-208): precheck, cheap first-word rejection against `get_commands()`,
tokenization, resolution, the declared-prefix confirmation, argument binding
(a failure publishes one `ncatbot.param_bind_failed` record and aborts), and
handler execution. Returns the updated state, the outcome, the notifications
published and the log lines of the execution phase. The `stateUnset` branch
is unreachable in the pipeline: `handle_message_event` initializes first. -/
def runCommand (env : Env) (st : PluginState) (ev : Event) :
    PluginState × RunOutcome × List Notification × List String :=
  match st.preprocessorPrefixes, st.resolver with
  | some pps, some r =>
    (match env.precheck pps ev with
     | none => (st, .preNone, [], [])
     | some pre =>
       let text := pre.commandText
       let fw := firstWordOf text
       let commands := r.getCommands
       let hit := commands.filter (fun c => strEndsWith fw (c.pathWords.headD ""))
       if hit.isEmpty then (st, .noHit, [], [])
       else
         let tokens := env.tokenize text
         let res := env.resolveFromTokens r tokens
         match res.2 with
         | none => (st, .noMatch, [], [])
         | some m =>
           if res.1 ∈ m.command.prefixes then
             match env.bind m.command ev m.pathWords [res.1] with
             | .error e =>
               (st, .bindFailed e m.command.name,
                [{ ntype := "ncatbot.param_bind_failed", event := ev, msg := e,
                   cmd := m.command.name }], [])
             | .ok _ =>
               let ex := executeFunction env st m.command.func ev
               (ex.1, .executed m.command.func ex.2.1, [], ex.2.2)
           else (st, .prefixMismatch, [], []))
  | _, _ => (st, .stateUnset, [], [])

/-- Translation of `UnifiedRegistryPlugin.initialize_if_needed` (plugin.py
lines 219-282). Note the order faithful to the source: the `_initialized`
flag is set to `True` and the fresh preprocessor and resolver are installed
BEFORE the prefix-conflict scan, so those mutations persist when the scan
raises. On no prefix conflict, the command and alias tables are filtered to
functions carrying `__is_command__` and handed to the resolver build. -/
def initializeIfNeeded (reg : Registry) (st : PluginState) :
    PluginState × Option BuildError :=
  if st.initialized then (st, none)
  else
    let ps := activePrefixes reg.registryPrefixLists.flatten
    let st2 : PluginState :=
      { st with
          initialized := true, prefixes := ps,
          preprocessorPrefixes := some ps,
          resolver := some { prefixes := ps, phase := .empty } }
    let normPs := ps.map normalizeCase
    match prefixConflictCheck normPs with
    | some pq => (st2, some (.prefixConflict pq.1 pq.2))
    | none =>
      let filteredCommands := reg.commands.filter (fun e => e.2.func.isCommand)
      let filteredAliases := reg.aliases.filter (fun e => e.2.func.isCommand)
      let built := Resolver.buildIndex { prefixes := ps, phase := .empty }
        filteredCommands filteredAliases
      ({ st2 with resolver := some built.1 }, built.2)

/-- Everything `handle_message_event` produces: the final state, a build error
that propagated to the caller (when the lazy build raised), the `_run_command`
outcome, the notifications published, the pure-filter invocations, the command
execution log lines, and the Python return value of the coroutine. -/
structure DispatchResult where
  st : PluginState
  buildError : Option BuildError
  outcome : Option RunOutcome
  published : List Notification
  filterRuns : List (Func × ExecResult)
  cmdLogs : List String
  returned : Option Bool
deriving DecidableEq

/-- Translation of `UnifiedRegistryPlugin.handle_message_event` (plugin.py
lines 210-217): lazily build (a raised build error propagates and nothing
else runs), then `_run_command`, then `_run_pure_filters`. The method body
has no `return` statement, so the coroutine's value is Python `None`,
modelled as `returned := none`. -/
def handleMessageEvent (env : Env) (w : World) (st : PluginState) (ev : Event) :
    DispatchResult :=
  let ini := initializeIfNeeded w.commandReg st
  match ini.2 with
  | some e =>
    { st := ini.1, buildError := some e, outcome := none, published := [],
      filterRuns := [], cmdLogs := [], returned := none }
  | none =>
    let rc := runCommand env ini.1 ev
    let pf := runPureFilters env w.filterReg rc.1 ev
    { st := pf.1, buildError := none, outcome := some rc.2.1,
      published := rc.2.2.1, filterRuns := pf.2, cmdLogs := rc.2.2.2,
      returned := none }

/-- Translation of `UnifiedRegistryPlugin.handle_plugin_unload_event`
(plugin.py lines 82-88): clear the `_initialized` flag, revoke the plugin's
commands and filters, then call `initialize_if_needed` synchronously (the
rebuild happens inside the handler; `func_plugin_map` is not touched). -/
def handlePluginUnloadEvent (w : World) (st : PluginState)
    (pluginName : String) : World × PluginState × Option BuildError :=
  let st1 := { st with initialized := false }
  let w1 : World :=
    { commandReg := w.commandReg.revokePlugin pluginName,
      filterReg := w.filterReg.revokePlugin pluginName }
  let r := initializeIfNeeded w1.commandReg st1
  (w1, r.1, r.2)

/-- Translation of `UnifiedRegistryPlugin.handle_plugin_load_event`
(plugin.py lines 90-93): clear the `_initialized` flag and rebuild
synchronously inside the handler. -/
def handlePluginLoadEvent (w : World) (st : PluginState) :
    World × PluginState × Option BuildError :=
  let st1 := { st with initialized := false }
  let r := initializeIfNeeded w.commandReg st1
  (w, r.1, r.2)

/-- Translation of `UnifiedRegistryPlugin.clear` (plugin.py lines 311-315):
purge the `func_plugin_map` cache, clear `_initialized`, and reset the
resolver to its Empty state. -/
def clearCaches (st : PluginState) : PluginState :=
  { st with
      funcPluginMap := [], initialized := false,
      resolver := st.resolver.map (fun r => { r with phase := .empty }) }

/-- Fold step choosing the longer of the current best prefix and the next
candidate. -/
def pickLonger : Option String → String → Option String
  | none, p => some p
  | some b, p => if b.length < p.length then some p else some b

/-- Modelled from the spec: the preprocessor's candidate matched prefix is the
longest registered prefix the leading text starts with (the preprocessor
module is absent from the sources). -/
def candidatePfx (prefixes : List String) (text : String) : Option String :=
  (prefixes.filter (fun p => strStartsWith text p)).foldl pickLonger none

/-- Modelled from the spec: a sound resolver walk only returns matches whose
command lives in the built index it was given. -/
def ResolverSound (env : Env) : Prop :=
  ∀ r toks m, (env.resolveFromTokens r toks).2 = some m → m.command ∈ r.indexSpecs

/-! Concrete fixtures used by witness and counterexample theorems. -/

/-- A trivial oracle environment: no text extracted, no resolution, binding
fails, filters pass, handlers succeed, no plugins. -/
def env0 : Env :=
  { precheck := fun _ _ => none,
    tokenize := fun _ => [],
    resolveFromTokens := fun _ _ => ("", none),
    bind := fun _ _ _ _ => .error "no binder",
    validateFilters := fun _ _ => true,
    funcCall := fun _ _ => .ok true,
    plugins := [] }

/-- A registry whose sole sub-registry declares the two conflicting message
prefixes of the spec's own example. -/
def regConf : Registry :=
  { registryPrefixLists := [["!", "!!"]], commands := [], aliases := [] }

/-- The plugin state left behind by the failed build over `regConf`. -/
def stConf : PluginState :=
  { initialized := true, prefixes := ["!", "!!"],
    preprocessorPrefixes := some ["!", "!!"],
    resolver := some { prefixes := ["!", "!!"], phase := .empty },
    funcPluginMap := [] }

/-- A handler function marked as a command, carrying no filters. -/
def funcBan : Func := { id := 1, isCommand := true, hasFilters := false }

/-- A registered command at path `["ban"]` with declared prefixes `["/"]`. -/
def cmdBan : CommandSpec :=
  { name := "ban", pathWords := ["ban"], prefixes := ["/"], func := funcBan,
    owningPlugin := "P" }

/-- A pure (non-command) filter function. -/
def funcFilter : Func := { id := 2, isCommand := false, hasFilters := false }

/-- A world with one registered command and one pure filter function. -/
def worldBan : World :=
  { commandReg :=
      { registryPrefixLists := [["/"]], commands := [(["ban"], cmdBan)], aliases := [] },
    filterReg := { entries := [{ fname := "f", owner := "P", func := funcFilter }] } }

/-- An initialized plugin state whose resolver index holds exactly `cmdBan`. -/
def stBan : PluginState :=
  { initialized := true, prefixes := ["/"],
    preprocessorPrefixes := some ["/"],
    resolver := some { prefixes := ["/"], phase := .built [(["ban"], cmdBan)] [] },
    funcPluginMap := [] }

/-- An oracle environment that extracts the text `"/ban abc"`, resolves it to
`cmdBan` under the matched message prefix `"/"`, and fails to bind. -/
def envBind : Env :=
  { env0 with
      precheck := fun _ _ => some { commandText := "/ban abc" },
      resolveFromTokens := fun _ _ => ("/", some { command := cmdBan, pathWords := ["ban"] }),
      bind := fun _ _ _ _ => .error "cannot parse" }

/-- An oracle environment like `envBind` but resolving under the message
prefix `"!"`, which is not among `cmdBan`'s declared prefixes. -/
def envMismatch : Env :=
  { envBind with
      precheck := fun _ _ => some { commandText := "!ban abc" },
      resolveFromTokens := fun _ _ => ("!", some { command := cmdBan, pathWords := ["ban"] }) }

/-- An oracle environment like `envBind` whose binding succeeds and whose
handler body raises. -/
def envRaise : Env :=
  { envBind with
      bind := fun _ _ _ _ => .ok { args := [], namedArgs := [] },
      funcCall := fun _ _ => .error "boom" }

/-- The `/ban` state with a populated function-to-plugin cache. -/
def stCache : PluginState :=
  { stBan with funcPluginMap := [(1, "P")] }

/-! Lemmas about first-occurrence deduplication and the active prefix list. -/

theorem mem_dedupFirstAux {x : String} :
    ∀ {seen l : List String}, x ∈ dedupFirstAux seen l ↔ x ∈ l ∧ x ∉ seen := by
  intro seen l
  induction l generalizing seen with
  | nil => simp [dedupFirstAux]
  | cons a l ih =>
    rw [dedupFirstAux]
    by_cases ha : a ∈ seen
    · rw [if_pos ha, ih]
      constructor
      · rintro ⟨hx, hs⟩
        exact ⟨List.mem_cons_of_mem _ hx, hs⟩
      · rintro ⟨hx, hs⟩
        rcases List.mem_cons.mp hx with rfl | hx
        · exact absurd ha hs
        · exact ⟨hx, hs⟩
    · rw [if_neg ha]
      constructor
      · intro hx
        rcases List.mem_cons.mp hx with rfl | hx
        · exact ⟨List.mem_cons_self _ _, ha⟩
        · obtain ⟨h1, h2⟩ := ih.mp hx
          exact ⟨List.mem_cons_of_mem _ h1, fun hs => h2 (List.mem_cons_of_mem _ hs)⟩
      · rintro ⟨hx, hs⟩
        by_cases hxa : x = a
        · subst hxa
          exact List.mem_cons_self _ _
        · rcases List.mem_cons.mp hx with rfl | hx
          · exact absurd rfl hxa
          · refine List.mem_cons_of_mem _ (ih.mpr ⟨hx, fun hc => ?_⟩)
            rcases List.mem_cons.mp hc with rfl | hc
            · exact hxa rfl
            · exact hs hc

theorem nodup_dedupFirstAux : ∀ (seen l : List String), (dedupFirstAux seen l).Nodup := by
  intro seen l
  induction l generalizing seen with
  | nil => simp [dedupFirstAux]
  | cons a l ih =>
    by_cases ha : a ∈ seen
    · simpa [dedupFirstAux, if_pos ha] using ih seen
    · rw [dedupFirstAux, if_neg ha, List.nodup_cons]
      refine ⟨fun hmem => ?_, ih (a :: seen)⟩
      exact (mem_dedupFirstAux.mp hmem).2 (by simp)

theorem nodup_dedupFirst (l : List String) : (dedupFirst l).Nodup :=
  nodup_dedupFirstAux [] l

theorem mem_dedupFirst {x : String} {l : List String} : x ∈ dedupFirst l ↔ x ∈ l := by
  simp [dedupFirst, mem_dedupFirstAux]

theorem nodup_activePrefixes (l : List String) : (activePrefixes l).Nodup := by
  unfold activePrefixes
  by_cases h : "" ∈ dedupFirst l
  · simpa [h] using (nodup_dedupFirst l).erase ""
  · simpa [h] using nodup_dedupFirst l

theorem mem_activePrefixes {x : String} {l : List String} :
    x ∈ activePrefixes l ↔ x ∈ l ∧ x ≠ "" := by
  unfold activePrefixes
  by_cases h : "" ∈ dedupFirst l
  · simp only [h, if_pos]
    rw [(nodup_dedupFirst l).mem_erase_iff]
    simp [mem_dedupFirst, and_comm]
  · simp only [h, if_neg, not_false_iff, mem_dedupFirst]
    constructor
    · intro hx
      refine ⟨hx, fun he => h ?_⟩
      exact he ▸ mem_dedupFirst.mpr (he ▸ hx)
    · exact fun hx => hx.1

theorem emptyStr_not_mem_activePrefixes (l : List String) : "" ∉ activePrefixes l := by
  intro h
  exact (mem_activePrefixes.mp h).2 rfl

/-! Lemmas about the enumerated prefix list and the conflict scan loops. -/

theorem mem_of_mem_enumFrom {p : String} :
    ∀ {l : List String} {n i : Nat}, (i, p) ∈ l.enumFrom n → p ∈ l := by
  intro l
  induction l with
  | nil => intro n i h; simp [List.enumFrom] at h
  | cons a l ih =>
    intro n i h
    rw [List.enumFrom] at h
    rcases List.mem_cons.mp h with h | h
    · simp only [Prod.mk.injEq] at h
      rw [h.2]
      exact List.mem_cons_self _ _
    · exact List.mem_cons_of_mem _ (ih h)

theorem exists_mem_enumFrom {p : String} :
    ∀ {l : List String} (n : Nat), p ∈ l → ∃ i, (i, p) ∈ l.enumFrom n := by
  intro l
  induction l with
  | nil => intro n h; simp at h
  | cons a l ih =>
    intro n h
    rcases List.mem_cons.mp h with rfl | h
    · exact ⟨n, by rw [List.enumFrom]; exact List.mem_cons_self _ _⟩
    · obtain ⟨i, hi⟩ := ih (n + 1) h
      exact ⟨i, by rw [List.enumFrom]; exact List.mem_cons_of_mem _ hi⟩

theorem enumFrom_index_lt {l : List String} :
    ∀ {n i : Nat} {p : String}, (i, p) ∈ l.enumFrom n → n ≤ i := by
  induction l with
  | nil => intro n i p h; simp [List.enumFrom] at h
  | cons a l ih =>
    intro n i p h
    rw [List.enumFrom] at h
    rcases List.mem_cons.mp h with h | h
    · simp only [Prod.mk.injEq] at h
      exact h.1.ge
    · exact Nat.le_of_succ_le (ih h)

theorem enumFrom_same_index {l : List String} :
    ∀ {n i : Nat} {p q : String}, (i, p) ∈ l.enumFrom n → (i, q) ∈ l.enumFrom n → p = q := by
  induction l with
  | nil => intro n i p q h; simp [List.enumFrom] at h
  | cons a l ih =>
    intro n i p q hp hq
    rw [List.enumFrom] at hp hq
    rcases List.mem_cons.mp hp with hp | hp <;> rcases List.mem_cons.mp hq with hq | hq
    · simp only [Prod.mk.injEq] at hp hq
      rw [hp.2, hq.2]
    · simp only [Prod.mk.injEq] at hp
      have h2 := enumFrom_index_lt hq
      obtain ⟨h3, -⟩ := hp
      omega
    · simp only [Prod.mk.injEq] at hq
      have h2 := enumFrom_index_lt hp
      obtain ⟨h3, -⟩ := hq
      omega
    · exact ih hp hq

theorem enumFrom_same_elem_of_nodup {l : List String} (hl : l.Nodup) :
    ∀ {n i j : Nat} {p : String}, (i, p) ∈ l.enumFrom n → (j, p) ∈ l.enumFrom n → i = j := by
  induction l with
  | nil => intro n i j p h; simp [List.enumFrom] at h
  | cons a l ih =>
    intro n i j p hp hq
    obtain ⟨hal, hnd⟩ := List.nodup_cons.mp hl
    rw [List.enumFrom] at hp hq
    rcases List.mem_cons.mp hp with hp | hp <;> rcases List.mem_cons.mp hq with hq | hq
    · simp only [Prod.mk.injEq] at hp hq
      obtain ⟨h1, -⟩ := hp
      obtain ⟨h2, -⟩ := hq
      omega
    · simp only [Prod.mk.injEq] at hp
      have h2 : p ∈ l := mem_of_mem_enumFrom hq
      rw [hp.2] at h2
      exact absurd h2 hal
    · simp only [Prod.mk.injEq] at hq
      have h2 : p ∈ l := mem_of_mem_enumFrom hp
      rw [hq.2] at h2
      exact absurd h2 hal
    · exact ih hnd hp hq

theorem innerScan_eq_none_iff {i : Nat} {p1 : String} :
    ∀ {e : List (Nat × String)},
      innerScan i p1 e = none ↔ ∀ jp ∈ e, jp.1 = i ∨ strStartsWith jp.2 p1 = false := by
  intro e
  induction e with
  | nil => simp [innerScan]
  | cons jp rest ih =>
    obtain ⟨j, p2⟩ := jp
    by_cases hc : i ≠ j ∧ strStartsWith p2 p1
    · rw [innerScan, if_pos hc]
      constructor
      · intro h; cases h
      · intro h
        rcases h (j, p2) (List.mem_cons_self _ _) with h1 | h1
        · exact absurd h1.symm hc.1
        · rw [hc.2] at h1
          exact Bool.noConfusion h1
    · rw [innerScan, if_neg hc, ih]
      constructor
      · intro h jq hjq
        rcases List.mem_cons.mp hjq with rfl | hjq
        · by_cases hij : j = i
          · exact Or.inl hij
          · cases hb : strStartsWith p2 p1 with
            | false => exact Or.inr rfl
            | true => exact absurd ⟨fun he => hij he.symm, hb⟩ hc
        · exact h jq hjq
      · intro h jq hjq
        exact h jq (List.mem_cons_of_mem _ hjq)

theorem innerScan_eq_some {i : Nat} {p1 : String} {pr : String × String} :
    ∀ {e : List (Nat × String)},
      innerScan i p1 e = some pr →
      pr.1 = p1 ∧ ∃ j, (j, pr.2) ∈ e ∧ i ≠ j ∧ strStartsWith pr.2 p1 = true := by
  intro e
  induction e with
  | nil => intro h; simp [innerScan] at h
  | cons jp rest ih =>
    obtain ⟨j, p2⟩ := jp
    intro h
    by_cases hc : i ≠ j ∧ strStartsWith p2 p1
    · rw [innerScan, if_pos hc] at h
      injection h with h
      subst h
      exact ⟨rfl, j, List.mem_cons_self _ _, hc.1, hc.2⟩
    · rw [innerScan, if_neg hc] at h
      obtain ⟨h1, j', hj', hij', hs'⟩ := ih h
      exact ⟨h1, j', List.mem_cons_of_mem _ hj', hij', hs'⟩

theorem outerScan_eq_none_iff {e : List (Nat × String)} :
    ∀ {rest : List (Nat × String)},
      outerScan e rest = none ↔ ∀ ip ∈ rest, innerScan ip.1 ip.2 e = none := by
  intro rest
  induction rest with
  | nil => simp [outerScan]
  | cons ip rest ih =>
    obtain ⟨i, p1⟩ := ip
    cases hin : innerScan i p1 e with
    | some r =>
      simp only [outerScan, hin]
      constructor
      · intro h; cases h
      · intro h
        have h2 := h (i, p1) (List.mem_cons_self _ _)
        rw [hin] at h2
        exact Option.noConfusion h2
    | none =>
      simp only [outerScan, hin, ih]
      constructor
      · intro h ip hip
        rcases List.mem_cons.mp hip with rfl | hip
        · exact hin
        · exact h ip hip
      · intro h ip hip
        exact h ip (List.mem_cons_of_mem _ hip)

theorem outerScan_eq_some {e : List (Nat × String)} {pr : String × String} :
    ∀ {rest : List (Nat × String)},
      outerScan e rest = some pr → ∃ ip ∈ rest, innerScan ip.1 ip.2 e = some pr := by
  intro rest
  induction rest with
  | nil => intro h; simp [outerScan] at h
  | cons ip rest ih =>
    obtain ⟨i, p1⟩ := ip
    intro h
    cases hin : innerScan i p1 e with
    | some r =>
      rw [outerScan, hin] at h
      injection h with h
      exact ⟨(i, p1), List.mem_cons_self _ _, by rw [hin, h]⟩
    | none =>
      rw [outerScan, hin] at h
      obtain ⟨ip', hip', hs'⟩ := ih h
      exact ⟨ip', List.mem_cons_of_mem _ hip', hs'⟩

/-- Characterization of the prefix-conflict scan over a duplicate-free prefix
list: it finds a conflict exactly when two distinct prefixes are in a
containment relation. -/
theorem prefixConflictCheck_isSome_iff {ps : List String} (hnd : ps.Nodup) :
    (prefixConflictCheck ps).isSome = true ↔
      ∃ p1 ∈ ps, ∃ p2 ∈ ps, p1 ≠ p2 ∧ strStartsWith p2 p1 = true := by
  constructor
  · intro h
    obtain ⟨pr, hpr⟩ := Option.isSome_iff_exists.mp h
    obtain ⟨⟨i, p1⟩, hip, hin⟩ := outerScan_eq_some hpr
    obtain ⟨hfst, j, hjp, hij, hsw⟩ := innerScan_eq_some hin
    have hp1 : p1 ∈ ps := mem_of_mem_enumFrom hip
    have hp2 : pr.2 ∈ ps := mem_of_mem_enumFrom hjp
    refine ⟨p1, hp1, pr.2, hp2, fun he => hij ?_, hsw⟩
    exact enumFrom_same_elem_of_nodup hnd hip (he ▸ hjp)
  · rintro ⟨p1, hp1, p2, hp2, hne, hsw⟩
    obtain ⟨i, hi⟩ := exists_mem_enumFrom 0 hp1
    obtain ⟨j, hj⟩ := exists_mem_enumFrom 0 hp2
    have hij : i ≠ j := by
      intro he
      exact hne (enumFrom_same_index hi (he ▸ hj))
    rw [Option.isSome_iff_ne_none]
    intro hnone
    have := (outerScan_eq_none_iff.mp hnone) (i, p1) hi
    rcases (innerScan_eq_none_iff.mp this) (j, p2) hj with h | h
    · exact hij h.symm
    · rw [hsw] at h; cases h

/-! Lemmas about the lazy index build. -/

theorem map_normalizeCase (l : List String) : l.map normalizeCase = l := by
  induction l with
  | nil => rfl
  | cons a l ih => simp [normalizeCase, ih]

theorem initializeIfNeeded_of_initialized {reg : Registry} {st : PluginState}
    (h : st.initialized = true) : initializeIfNeeded reg st = (st, none) := by
  rw [initializeIfNeeded, if_pos h]

theorem initializeIfNeeded_of_conflict {reg : Registry} {st : PluginState}
    {pq : String × String} (h : st.initialized = false)
    (hpc : prefixConflictCheck (activePrefixes reg.registryPrefixLists.flatten) = some pq) :
    initializeIfNeeded reg st =
      ({ st with
           initialized := true,
           prefixes := activePrefixes reg.registryPrefixLists.flatten,
           preprocessorPrefixes := some (activePrefixes reg.registryPrefixLists.flatten),
           resolver := some { prefixes := activePrefixes reg.registryPrefixLists.flatten,
                              phase := .empty } },
       some (.prefixConflict pq.1 pq.2)) := by
  rw [initializeIfNeeded, if_neg (by simp [h])]
  simp only [map_normalizeCase, hpc]

theorem initializeIfNeeded_of_noConflict {reg : Registry} {st : PluginState}
    (h : st.initialized = false)
    (hpc : prefixConflictCheck (activePrefixes reg.registryPrefixLists.flatten) = none) :
    initializeIfNeeded reg st =
      (let ps := activePrefixes reg.registryPrefixLists.flatten
       let built := Resolver.buildIndex { prefixes := ps, phase := .empty }
         (reg.commands.filter (fun e => e.2.func.isCommand))
         (reg.aliases.filter (fun e => e.2.func.isCommand))
       ({ st with
            initialized := true, prefixes := ps, preprocessorPrefixes := some ps,
            resolver := some built.1 },
        built.2)) := by
  rw [initializeIfNeeded, if_neg (by simp [h])]
  simp only [map_normalizeCase, hpc]

/-- The claim C1 statement: the lazy build from a fresh state raises the
prefix-conflict error exactly when the active prefix set holds two distinct
prefixes in a containment relation. -/
theorem claim1_prefix_conflict_iff (reg : Registry) :
    (∃ p1 p2, (initializeIfNeeded reg initialState).2 = some (.prefixConflict p1 p2)) ↔
      ∃ p1 ∈ activePrefixes reg.registryPrefixLists.flatten,
        ∃ p2 ∈ activePrefixes reg.registryPrefixLists.flatten,
          p1 ≠ p2 ∧ strStartsWith p2 p1 = true := by
  rw [← prefixConflictCheck_isSome_iff (nodup_activePrefixes reg.registryPrefixLists.flatten)]
  cases hpc : prefixConflictCheck (activePrefixes reg.registryPrefixLists.flatten) with
  | some pq =>
    rw [initializeIfNeeded_of_conflict rfl hpc]
    simp
  | none =>
    rw [initializeIfNeeded_of_noConflict rfl hpc]
    simp only [Option.isSome_none]
    constructor
    · rintro ⟨p1, p2, hp⟩
      rw [Resolver.buildIndex] at hp
      split at hp
      · simp only [Prod.snd] at hp
        cases hp
      · simp only [Prod.snd] at hp
        cases hp
    · intro h
      cases h

/-! Lemmas about dispatch after a failed build (claim C2). -/

theorem initializeIfNeeded_failed_shape {reg : Registry} {st st1 : PluginState}
    {e : BuildError} (h : initializeIfNeeded reg st = (st1, some e)) :
    st.initialized = false ∧ st1.initialized = true ∧
      st1.funcPluginMap = st.funcPluginMap ∧
      ∃ ps ph, st1.preprocessorPrefixes = some ps ∧
        st1.resolver = some { prefixes := ps, phase := ph } ∧
        (ph = ResolverPhase.empty ∨ ph = ResolverPhase.errored) := by
  cases hini : st.initialized with
  | true =>
    rw [initializeIfNeeded_of_initialized hini] at h
    simp only [Prod.mk.injEq] at h
    exact absurd h.2 (by simp)
  | false =>
    refine ⟨rfl, ?_⟩
    cases hpc : prefixConflictCheck (activePrefixes reg.registryPrefixLists.flatten) with
    | some pq =>
      rw [initializeIfNeeded_of_conflict hini hpc] at h
      simp only [Prod.mk.injEq] at h
      rw [← h.1]
      exact ⟨rfl, rfl, _, .empty, rfl, rfl, Or.inl rfl⟩
    | none =>
      rw [initializeIfNeeded_of_noConflict hini hpc] at h
      simp only [Resolver.buildIndex] at h
      split at h
      · simp only [Prod.mk.injEq] at h
        rw [← h.1]
        exact ⟨rfl, rfl, _, .errored, rfl, rfl, Or.inr rfl⟩
      · simp only [Prod.mk.injEq] at h
        exact absurd h.2 (by simp)

theorem dispatch_no_commands {env : Env} {w : World} {st : PluginState} {ev : Event}
    {pps : List String} {r : Resolver}
    (hinit : st.initialized = true)
    (hpp : st.preprocessorPrefixes = some pps)
    (hr : st.resolver = some r)
    (hrc : r.getCommands = []) :
    (handleMessageEvent env w st ev).buildError = none ∧
    (handleMessageEvent env w st ev).published = [] ∧
    ((handleMessageEvent env w st ev).outcome = some RunOutcome.preNone ∨
     (handleMessageEvent env w st ev).outcome = some RunOutcome.noHit) := by
  have hini : initializeIfNeeded w.commandReg st = (st, none) :=
    initializeIfNeeded_of_initialized hinit
  simp only [handleMessageEvent, hini]
  cases hpre : env.precheck pps ev with
  | none =>
    simp only [runCommand, hpp, hr, hpre]
    exact ⟨trivial, trivial, Or.inl trivial⟩
  | some pre =>
    simp only [runCommand, hpp, hr, hpre, hrc, List.filter_nil, List.isEmpty_nil,
      if_pos]
    exact ⟨trivial, trivial, Or.inr trivial⟩

/-- Counterexample to claim C2 as stated: the failed build over the
conflicting prefixes `"!"` and `"!!"` does change the system state (the
`_initialized` flag flips and a fresh preprocessor and resolver are
installed before the error is raised). -/
theorem claim2_counterexample :
    (initializeIfNeeded regConf initialState).2 = some (.prefixConflict "!" "!!") ∧
    (initializeIfNeeded regConf initialState).1 ≠ initialState := by
  decide

/-- The claim C2 statement, amended: a failed build mutates the state (flag
set, fresh empty or errored resolver installed), and every later
`handle_message_event` neither re-raises the build error nor dispatches any
command handler (the dead resolver exposes no commands, so dispatch stops at
precheck or at the cheap first-word rejection, publishing nothing). -/
theorem claim2_failed_build (reg : Registry) (st1 : PluginState) (e : BuildError)
    (h : initializeIfNeeded reg initialState = (st1, some e)) :
    st1 ≠ initialState ∧ st1.initialized = true ∧
    ∀ env w ev,
      (handleMessageEvent env w st1 ev).buildError = none ∧
      (handleMessageEvent env w st1 ev).published = [] ∧
      ((handleMessageEvent env w st1 ev).outcome = some RunOutcome.preNone ∨
       (handleMessageEvent env w st1 ev).outcome = some RunOutcome.noHit) := by
  obtain ⟨-, hinit, -, ps, ph, hpp, hr, hph⟩ := initializeIfNeeded_failed_shape h
  have hne : st1 ≠ initialState := by
    intro hh
    rw [hh] at hinit
    exact absurd hinit (by simp [initialState])
  refine ⟨hne, hinit, fun env w ev => ?_⟩
  have hrc : Resolver.getCommands { prefixes := ps, phase := ph } = [] := by
    rcases hph with rfl | rfl <;> rfl
  exact dispatch_no_commands hinit hpp hr hrc

/-- Witness for `claim2_failed_build` at the concrete conflicting registry. -/
theorem claim2_witness :
    initializeIfNeeded regConf initialState = (stConf, some (.prefixConflict "!" "!!")) ∧
    (stConf ≠ initialState ∧ stConf.initialized = true ∧
     (handleMessageEvent env0 worldBan stConf 0).buildError = none ∧
     (handleMessageEvent env0 worldBan stConf 0).published = [] ∧
     ((handleMessageEvent env0 worldBan stConf 0).outcome = some RunOutcome.preNone ∨
      (handleMessageEvent env0 worldBan stConf 0).outcome = some RunOutcome.noHit)) := by
  have h : initializeIfNeeded regConf initialState
      = (stConf, some (.prefixConflict "!" "!!")) := by decide
  have h2 := claim2_failed_build regConf stConf (.prefixConflict "!" "!!") h
  exact ⟨h, h2.1, h2.2.1, (h2.2.2 env0 worldBan 0).1, (h2.2.2 env0 worldBan 0).2.1,
    (h2.2.2 env0 worldBan 0).2.2⟩

/-! Lemmas about a structurally resolved command and the pure-filter phase. -/

theorem runPureFiltersGo_map_fst (env : Env) (ev : Event) :
    ∀ (fs : List Func) (st : PluginState),
      (runPureFiltersGo env ev st fs).2.map Prod.fst =
        fs.filter (fun f => !f.isCommand) := by
  intro fs
  induction fs with
  | nil => intro st; rfl
  | cons f fs ih =>
    intro st
    cases hf : f.isCommand with
    | true => simp [runPureFiltersGo, hf, ih]
    | false => simp [runPureFiltersGo, hf, ih]

theorem runPureFilters_map_fst (env : Env) (fr : FilterRegistry) (st : PluginState)
    (ev : Event) :
    (runPureFilters env fr st ev).2.map Prod.fst =
      (fr.entries.map FilterEntry.func).filter (fun f => !f.isCommand) := by
  rw [runPureFilters, runPureFiltersGo_map_fst]

theorem runCommand_resolved {env : Env} {st : PluginState} {ev : Event}
    {pps : List String} {r : Resolver} {pre : PreprocessResult} {pfx : String}
    {m : MatchResult}
    (hpp : st.preprocessorPrefixes = some pps)
    (hr : st.resolver = some r)
    (hpre : env.precheck pps ev = some pre)
    (hhit : (r.getCommands.filter
      (fun c => strEndsWith (firstWordOf pre.commandText) (c.pathWords.headD ""))).isEmpty
        = false)
    (hres : env.resolveFromTokens r (env.tokenize pre.commandText) = (pfx, some m)) :
    runCommand env st ev =
      if pfx ∈ m.command.prefixes then
        match env.bind m.command ev m.pathWords [pfx] with
        | .error e =>
          (st, .bindFailed e m.command.name,
           [{ ntype := "ncatbot.param_bind_failed", event := ev, msg := e,
              cmd := m.command.name }], [])
        | .ok _ =>
          let ex := executeFunction env st m.command.func ev
          (ex.1, .executed m.command.func ex.2.1, [], ex.2.2)
      else (st, .prefixMismatch, [], []) := by
  simp only [runCommand, hpp, hr, hpre, hhit, hres, Bool.false_eq_true, if_false]

/-- The claim C3 statement: when a resolved command's binding fails, exactly
one `ncatbot.param_bind_failed` record carrying the event, the message and
the command name is published, no error propagates to the caller, the
handler is not executed, and the pure filters still run. -/
theorem claim3_bind_error_reported (env : Env) (w : World) (st : PluginState)
    (ev : Event) (pps : List String) (r : Resolver) (pre : PreprocessResult)
    (pfx : String) (m : MatchResult) (emsg : String)
    (hinit : st.initialized = true)
    (hpp : st.preprocessorPrefixes = some pps)
    (hr : st.resolver = some r)
    (hpre : env.precheck pps ev = some pre)
    (hhit : (r.getCommands.filter
      (fun c => strEndsWith (firstWordOf pre.commandText) (c.pathWords.headD ""))).isEmpty
        = false)
    (hres : env.resolveFromTokens r (env.tokenize pre.commandText) = (pfx, some m))
    (hpfx : pfx ∈ m.command.prefixes)
    (hbind : env.bind m.command ev m.pathWords [pfx] = .error emsg) :
    (handleMessageEvent env w st ev).published =
      [{ ntype := "ncatbot.param_bind_failed", event := ev, msg := emsg,
         cmd := m.command.name }] ∧
    (handleMessageEvent env w st ev).buildError = none ∧
    (handleMessageEvent env w st ev).outcome =
      some (.bindFailed emsg m.command.name) ∧
    (handleMessageEvent env w st ev).filterRuns.map Prod.fst =
      (w.filterReg.entries.map FilterEntry.func).filter (fun f => !f.isCommand) := by
  have hini : initializeIfNeeded w.commandReg st = (st, none) :=
    initializeIfNeeded_of_initialized hinit
  simp only [handleMessageEvent, hini,
    runCommand_resolved hpp hr hpre hhit hres, if_pos hpfx, hbind,
    runPureFilters_map_fst]
  simp

/-- Witness for `claim3_bind_error_reported` on the concrete `/ban` fixture. -/
theorem claim3_witness :
    envBind.bind cmdBan 0 ["ban"] ["/"] = .error "cannot parse" ∧
    (handleMessageEvent envBind worldBan stBan 0).published =
      [{ ntype := "ncatbot.param_bind_failed", event := 0, msg := "cannot parse",
         cmd := "ban" }] ∧
    (handleMessageEvent envBind worldBan stBan 0).outcome =
      some (.bindFailed "cannot parse" "ban") := by
  have h := claim3_bind_error_reported envBind worldBan stBan 0 ["/"]
    { prefixes := ["/"], phase := .built [(["ban"], cmdBan)] [] }
    { commandText := "/ban abc" } "/" { command := cmdBan, pathWords := ["ban"] }
    "cannot parse" rfl rfl rfl rfl (by decide) rfl (by decide) rfl
  exact ⟨rfl, h.1, h.2.2.1⟩

/-- The claim C5 statement: a structurally resolved command whose matched
message prefix is not among its own declared prefixes is treated as
no-match — the handler is not executed, nothing is published, nothing is
logged, and no error propagates. -/
theorem claim5_prefix_mismatch (env : Env) (w : World) (st : PluginState)
    (ev : Event) (pps : List String) (r : Resolver) (pre : PreprocessResult)
    (pfx : String) (m : MatchResult)
    (hinit : st.initialized = true)
    (hpp : st.preprocessorPrefixes = some pps)
    (hr : st.resolver = some r)
    (hpre : env.precheck pps ev = some pre)
    (hhit : (r.getCommands.filter
      (fun c => strEndsWith (firstWordOf pre.commandText) (c.pathWords.headD ""))).isEmpty
        = false)
    (hres : env.resolveFromTokens r (env.tokenize pre.commandText) = (pfx, some m))
    (hpfx : pfx ∉ m.command.prefixes) :
    (handleMessageEvent env w st ev).outcome = some RunOutcome.prefixMismatch ∧
    (handleMessageEvent env w st ev).published = [] ∧
    (handleMessageEvent env w st ev).cmdLogs = [] ∧
    (handleMessageEvent env w st ev).buildError = none := by
  have hini : initializeIfNeeded w.commandReg st = (st, none) :=
    initializeIfNeeded_of_initialized hinit
  simp only [handleMessageEvent, hini,
    runCommand_resolved hpp hr hpre hhit hres, if_neg hpfx]
  simp

/-- Witness for `claim5_prefix_mismatch`: the message prefix `"!"` is matched
syntactically but `cmdBan` declares only `"/"`. -/
theorem claim5_witness :
    ("!" ∉ cmdBan.prefixes) ∧
    (handleMessageEvent envMismatch worldBan stBan 0).outcome =
      some RunOutcome.prefixMismatch ∧
    (handleMessageEvent envMismatch worldBan stBan 0).published = [] := by
  have h := claim5_prefix_mismatch envMismatch worldBan stBan 0 ["/"]
    { prefixes := ["/"], phase := .built [(["ban"], cmdBan)] [] }
    { commandText := "!ban abc" } "!" { command := cmdBan, pathWords := ["ban"] }
    rfl rfl rfl rfl (by decide) rfl (by decide)
  exact ⟨by decide, h.1, h.2.1⟩

/-- Counterexample to claim C4 as stated: a handler that raises is caught,
but no record at all is published to the notification sink for that event
(the claim's "reported via the notification sink" fails on the code, which
only logs execution errors). -/
theorem claim4_counterexample :
    (handleMessageEvent envRaise worldBan stBan 0).outcome =
      some (.executed funcBan .caught) ∧
    (handleMessageEvent envRaise worldBan stBan 0).published = [] := by
  decide

/-- The claim C4 statement, amended: an exception raised by a handler is
caught at the orchestrator boundary, logged, and never propagates to the
caller of `handle_message_event`, and the registered pure filter functions
still all run for that event; however the exception is NOT reported via the
notification sink — no record is published (only bind failures publish). -/
theorem claim4_handler_exception (env : Env) (w : World) (st : PluginState)
    (ev : Event) (pps : List String) (r : Resolver) (pre : PreprocessResult)
    (pfx : String) (m : MatchResult) (br : BindResult) (emsg : String)
    (hinit : st.initialized = true)
    (hpp : st.preprocessorPrefixes = some pps)
    (hr : st.resolver = some r)
    (hpre : env.precheck pps ev = some pre)
    (hhit : (r.getCommands.filter
      (fun c => strEndsWith (firstWordOf pre.commandText) (c.pathWords.headD ""))).isEmpty
        = false)
    (hres : env.resolveFromTokens r (env.tokenize pre.commandText) = (pfx, some m))
    (hpfx : pfx ∈ m.command.prefixes)
    (hbind : env.bind m.command ev m.pathWords [pfx] = .ok br)
    (hnf : m.command.func.hasFilters = false)
    (hcall : env.funcCall m.command.func ev = .error emsg) :
    (handleMessageEvent env w st ev).buildError = none ∧
    (handleMessageEvent env w st ev).outcome =
      some (.executed m.command.func .caught) ∧
    (handleMessageEvent env w st ev).cmdLogs ≠ [] ∧
    (handleMessageEvent env w st ev).published = [] ∧
    (handleMessageEvent env w st ev).filterRuns.map Prod.fst =
      (w.filterReg.entries.map FilterEntry.func).filter (fun f => !f.isCommand) := by
  have hini : initializeIfNeeded w.commandReg st = (st, none) :=
    initializeIfNeeded_of_initialized hinit
  have hex : executeFunction env st m.command.func ev =
      ((findPluginForFunction env st m.command.func).2, .caught,
       ["error executing function: " ++ emsg, "traceback"]) := by
    simp [executeFunction, hnf, hcall]
  simp only [handleMessageEvent, hini,
    runCommand_resolved hpp hr hpre hhit hres, if_pos hpfx, hbind, hex,
    runPureFilters_map_fst]
  simp

/-- Witness for `claim4_handler_exception` on the raising `/ban` fixture. -/
theorem claim4_witness :
    envRaise.funcCall cmdBan.func 0 = .error "boom" ∧
    (handleMessageEvent envRaise worldBan stBan 0).buildError = none ∧
    (handleMessageEvent envRaise worldBan stBan 0).cmdLogs ≠ [] ∧
    (handleMessageEvent envRaise worldBan stBan 0).filterRuns.map Prod.fst =
      (worldBan.filterReg.entries.map FilterEntry.func).filter
        (fun f => !f.isCommand) := by
  have h := claim4_handler_exception envRaise worldBan stBan 0 ["/"]
    { prefixes := ["/"], phase := .built [(["ban"], cmdBan)] [] }
    { commandText := "/ban abc" } "/" { command := cmdBan, pathWords := ["ban"] }
    { args := [], namedArgs := [] } "boom"
    rfl rfl rfl rfl (by decide) rfl (by decide) rfl rfl rfl
  exact ⟨rfl, h.1, h.2.2.1, h.2.2.2.2⟩

/-- The claim C6 statement: whenever the lazy build does not raise, every
registered pure filter function (those not marked `__is_command__`) is
invoked by `handle_message_event`, in registration order, whatever the
command phase did (the oracle environment, and with it the preprocessing and
resolution outcome, is universally quantified). -/
theorem claim6_pure_filters_always_run (env : Env) (w : World) (st : PluginState)
    (ev : Event) (h : (initializeIfNeeded w.commandReg st).2 = none) :
    (handleMessageEvent env w st ev).filterRuns.map Prod.fst =
      (w.filterReg.entries.map FilterEntry.func).filter (fun f => !f.isCommand) := by
  simp only [handleMessageEvent, h, runPureFilters_map_fst]

/-- Witness for `claim6_pure_filters_always_run` on the `/ban` fixture. -/
theorem claim6_witness :
    (initializeIfNeeded worldBan.commandReg stBan).2 = none ∧
    (handleMessageEvent env0 worldBan stBan 0).filterRuns.map Prod.fst =
      (worldBan.filterReg.entries.map FilterEntry.func).filter
        (fun f => !f.isCommand) :=
  ⟨by decide, claim6_pure_filters_always_run env0 worldBan stBan 0 (by decide)⟩

/-! Lemmas about the plugin load/unload handlers (claim C7). -/

theorem initializeIfNeeded_funcPluginMap (reg : Registry) (st : PluginState) :
    (initializeIfNeeded reg st).1.funcPluginMap = st.funcPluginMap := by
  cases hini : st.initialized with
  | true => rw [initializeIfNeeded_of_initialized hini]
  | false =>
    cases hpc : prefixConflictCheck (activePrefixes reg.registryPrefixLists.flatten) with
    | some pq => rw [initializeIfNeeded_of_conflict hini hpc]
    | none => rw [initializeIfNeeded_of_noConflict hini hpc]

theorem initializeIfNeeded_fst_initialized (reg : Registry) (st : PluginState) :
    (initializeIfNeeded reg st).1.initialized = true := by
  cases hini : st.initialized with
  | true =>
    rw [initializeIfNeeded_of_initialized hini]
    exact hini
  | false =>
    cases hpc : prefixConflictCheck (activePrefixes reg.registryPrefixLists.flatten) with
    | some pq => rw [initializeIfNeeded_of_conflict hini hpc]
    | none => rw [initializeIfNeeded_of_noConflict hini hpc]

/-- Counterexample to claim C7 as stated: after a plugin-unload event the
cached function-to-plugin lookup table is NOT purged (it still holds its
entry), and the index rebuild has already happened inside the mutation
handler (the initialized flag is back to `true`, so the next dispatch will
not rebuild). -/
theorem claim7_counterexample :
    (handlePluginUnloadEvent worldBan stCache "P").2.1.funcPluginMap = [(1, "P")] ∧
    (handlePluginUnloadEvent worldBan stCache "P").2.1.initialized = true := by
  decide

/-- The claim C7 statement, amended: a plugin load or unload event clears the
initialized flag, revokes via the registries, and then rebuilds the index
eagerly inside the mutation handler itself (`initialize_if_needed` is called
synchronously, so the handler returns with the flag set and the next
dispatch's lazy build is a no-op); the cached function-to-plugin lookup table
is not purged by either handler (only the administrative `clear` purges it). -/
theorem claim7_mutation_handlers (w : World) (st : PluginState) (pluginName : String) :
    ((handlePluginUnloadEvent w st pluginName).2.1.funcPluginMap = st.funcPluginMap) ∧
    ((handlePluginUnloadEvent w st pluginName).2.1.initialized = true) ∧
    (∀ reg2, initializeIfNeeded reg2 (handlePluginUnloadEvent w st pluginName).2.1 =
      ((handlePluginUnloadEvent w st pluginName).2.1, none)) ∧
    ((handlePluginLoadEvent w st).2.1.funcPluginMap = st.funcPluginMap) ∧
    ((handlePluginLoadEvent w st).2.1.initialized = true) ∧
    (∀ reg2, initializeIfNeeded reg2 (handlePluginLoadEvent w st).2.1 =
      ((handlePluginLoadEvent w st).2.1, none)) ∧
    ((clearCaches st).funcPluginMap = []) := by
  simp only [handlePluginUnloadEvent, handlePluginLoadEvent]
  refine ⟨initializeIfNeeded_funcPluginMap _ _, initializeIfNeeded_fst_initialized _ _,
    fun reg2 => initializeIfNeeded_of_initialized (initializeIfNeeded_fst_initialized _ _),
    initializeIfNeeded_funcPluginMap _ _, initializeIfNeeded_fst_initialized _ _,
    fun reg2 => initializeIfNeeded_of_initialized (initializeIfNeeded_fst_initialized _ _),
    rfl⟩

/-- The claim C8 statement, evaluated on the code: the `handle_message_event`
coroutine has no return statement, so for every inbound message event its
value is Python `None`, never a boolean handled flag. -/
theorem claim8_returns_none (env : Env) (w : World) (st : PluginState) (ev : Event) :
    (handleMessageEvent env w st ev).returned = none := by
  cases h : (initializeIfNeeded w.commandReg st).2 with
  | none => simp [handleMessageEvent, h]
  | some e => simp [handleMessageEvent, h]

/-! Lemmas for the `__is_command__` marker invariant (claim C9). -/

theorem runCommand_executed_inv {env : Env} {st : PluginState} {ev : Event}
    {f : Func} {er : ExecResult}
    (h : (runCommand env st ev).2.1 = RunOutcome.executed f er) :
    ∃ r toks m, st.resolver = some r ∧
      (env.resolveFromTokens r toks).2 = some m ∧ f = m.command.func := by
  unfold runCommand at h
  split at h
  case _ pps r hpp hr =>
    cases hpre : env.precheck pps ev with
    | none => rw [hpre] at h; simp at h
    | some pre =>
      rw [hpre] at h
      simp only at h
      split at h
      · simp at h
      · split at h
        case _ heq => simp at h
        case _ m heq =>
          split at h
          · split at h
            case _ e hb => simp at h
            case _ br hb =>
              simp only at h
              refine ⟨r, env.tokenize pre.commandText, m, hr, ?_, ?_⟩
              · rw [heq]
              · cases h
                rfl
          · simp at h
  case _ => simp at h

/-- The claim C9 statement: the built resolver index only ever holds specs
whose handler carries the `__is_command__` marker — any registered command
or alias lacking it is excluded from the index — and, for any resolver walk
that only returns matches from its index, a dispatched handler always
carries the marker. -/
theorem claim9_marker_invariant (env : Env) (w : World) (ev : Event)
    (hsound : ResolverSound env) :
    (∀ r, (initializeIfNeeded w.commandReg initialState).1.resolver = some r →
      (∀ s ∈ r.indexSpecs, s.func.isCommand = true) ∧
      (∀ s : CommandSpec, s.func.isCommand = false → s ∉ r.indexSpecs)) ∧
    (∀ f er, (handleMessageEvent env w initialState ev).outcome =
        some (RunOutcome.executed f er) → f.isCommand = true) := by
  have hpur : ∀ r, (initializeIfNeeded w.commandReg initialState).1.resolver = some r →
      ∀ s ∈ r.indexSpecs, s.func.isCommand = true := by
    intro r hr s hs
    cases hpc : prefixConflictCheck
        (activePrefixes w.commandReg.registryPrefixLists.flatten) with
    | some pq =>
      rw [initializeIfNeeded_of_conflict rfl hpc] at hr
      simp only [Option.some.injEq] at hr
      rw [← hr] at hs
      simp [Resolver.indexSpecs] at hs
    | none =>
      rw [initializeIfNeeded_of_noConflict rfl hpc] at hr
      simp only [Resolver.buildIndex] at hr
      split at hr
      · simp only [Option.some.injEq] at hr
        rw [← hr] at hs
        simp [Resolver.indexSpecs] at hs
      · simp only [Option.some.injEq] at hr
        rw [← hr] at hs
        simp only [Resolver.indexSpecs, List.mem_map] at hs
        obtain ⟨e, he, rfl⟩ := hs
        rcases List.mem_append.mp he with he | he <;>
          exact (List.mem_filter.mp he).2
  refine ⟨fun r hr => ⟨hpur r hr, fun s hm hs => ?_⟩, fun f er h => ?_⟩
  · rw [hpur r hr s hs] at hm
    cases hm
  · cases hini : (initializeIfNeeded w.commandReg initialState).2 with
    | some e => simp [handleMessageEvent, hini] at h
    | none =>
      simp only [handleMessageEvent, hini, Option.some.injEq] at h
      obtain ⟨r, toks, m, hr, hres, rfl⟩ := runCommand_executed_inv h
      have hm : m.command ∈ r.indexSpecs := hsound r toks m hres
      exact hpur r hr m.command hm

/-- Witness for `claim9_marker_invariant`: the trivial environment resolves
nothing, so it is vacuously sound. -/
theorem claim9_witness :
    ResolverSound env0 ∧
    (∀ r, (initializeIfNeeded worldBan.commandReg initialState).1.resolver = some r →
      (∀ s ∈ r.indexSpecs, s.func.isCommand = true)) := by
  have hs : ResolverSound env0 := by
    intro r toks m h
    simp [env0] at h
  exact ⟨hs, fun r hr => ((claim9_marker_invariant env0 worldBan 0 hs).1 r hr).1⟩

/-! Lemmas about the empty-string prefix (claim C10). -/

theorem activePrefixes_eq_filter (l : List String) :
    activePrefixes l = (dedupFirst l).filter (fun p => p != "") := by
  unfold activePrefixes
  by_cases h : "" ∈ dedupFirst l
  · rw [if_pos h]
    exact (nodup_dedupFirst l).erase_eq_filter ""
  · rw [if_neg h]
    symm
    rw [List.filter_eq_self]
    intro a ha
    simp only [bne_iff_ne, ne_eq]
    intro he
    exact h (he ▸ ha)

theorem foldl_pickLonger_mem :
    ∀ (l : List String) (acc : Option String) (p : String),
      l.foldl pickLonger acc = some p → acc = some p ∨ p ∈ l := by
  intro l
  induction l with
  | nil => intro acc p h; exact Or.inl h
  | cons a l ih =>
    intro acc p h
    rw [List.foldl_cons] at h
    rcases ih (pickLonger acc a) p h with h1 | h1
    · cases acc with
      | none =>
        rw [pickLonger] at h1
        injection h1 with h1
        subst h1
        exact Or.inr (List.mem_cons_self _ _)
      | some b =>
        rw [pickLonger] at h1
        by_cases hlen : b.length < a.length
        · rw [if_pos hlen] at h1
          injection h1 with h1
          subst h1
          exact Or.inr (List.mem_cons_self _ _)
        · rw [if_neg hlen] at h1
          exact Or.inl h1
    · exact Or.inr (List.mem_cons_of_mem _ h1)

theorem candidatePfx_mem {ps : List String} {t p : String}
    (h : candidatePfx ps t = some p) : p ∈ ps := by
  rcases foldl_pickLonger_mem _ _ _ h with h1 | h1
  · exact Option.noConfusion h1
  · exact (List.mem_filter.mp h1).1

/-- The claim C10 statement: the active prefix list is the registered list
deduplicated in first-occurrence order with the empty string filtered out;
consequently the empty string is never an active prefix, registering it
never changes whether the build raises a prefix conflict, and it is never
the preprocessor's candidate matched prefix. -/
theorem claim10_empty_prefix (l l1 l2 : List String) (t : String) :
    (activePrefixes l = (dedupFirst l).filter (fun p => p != "")) ∧
    ("" ∉ activePrefixes l) ∧
    ((prefixConflictCheck (activePrefixes (l1 ++ "" :: l2))).isSome = true ↔
     (prefixConflictCheck (activePrefixes (l1 ++ l2))).isSome = true) ∧
    (candidatePfx (activePrefixes l) t ≠ some "") := by
  refine ⟨activePrefixes_eq_filter l, emptyStr_not_mem_activePrefixes l, ?_, ?_⟩
  · rw [prefixConflictCheck_isSome_iff (nodup_activePrefixes _),
      prefixConflictCheck_isSome_iff (nodup_activePrefixes _)]
    have hmem : ∀ x : String,
        x ∈ activePrefixes (l1 ++ "" :: l2) ↔ x ∈ activePrefixes (l1 ++ l2) := by
      intro x
      rw [mem_activePrefixes, mem_activePrefixes]
      constructor
      · rintro ⟨hx, hne⟩
        refine ⟨?_, hne⟩
        rcases List.mem_append.mp hx with h | h
        · exact List.mem_append.mpr (Or.inl h)
        · rcases List.mem_cons.mp h with rfl | h
          · exact absurd rfl hne
          · exact List.mem_append.mpr (Or.inr h)
      · rintro ⟨hx, hne⟩
        refine ⟨?_, hne⟩
        rcases List.mem_append.mp hx with h | h
        · exact List.mem_append.mpr (Or.inl h)
        · exact List.mem_append.mpr (Or.inr (List.mem_cons_of_mem _ h))
    simp only [hmem]
  · intro h
    exact emptyStr_not_mem_activePrefixes l (candidatePfx_mem h)

end NcatbotUnified
